import Mathlib

/-!
SiteOptimizer: the retrying fetch wrapper and the DOM helpers

A shallow embedding of `src/site-optimizer.js`.

* `fetchData` (lines 96-112) is embedded as a state-passing function over a
  `World` that records the requests issued, the pending timers and the console
  output.  The behaviour of the network is an oracle: a sequence of attempt
  outcomes, one per call of `fetch`.
* `deferScripts` (lines 115-125) runs over a document given as the list of its
  script elements.
* `lazyLoad` (lines 45-70) runs over the list of the page's elements, with the
  `IntersectionObserver` as a set of observed nodes and a callback that is
  driven by batches of entries.

The retry counter is an integer-valued Number: `retries - 1` is the subtraction
of IEEE 754 doubles, which is exact up to `2 ^ 53` and rounds above.  Since the
recursion of `fetchData` need not end on such a counter, its embedding takes a
bound on the number of attempts that are run.
-/

namespace SiteOptimizer

/-! ## Values, errors and the world -/

/-- JSON-compatible JavaScript values, as produced by `response.json()`. -/
inductive JSValue where
  | null
  | bool (b : Bool)
  | num (n : Int)
  | str (s : String)
  | arr (items : List JSValue)
  | obj (fields : List (String × JSValue))

/-- The errors that can be thrown inside the `try` block of `fetchData`. -/
inductive JSError where
  /-- `fetch` rejected because of a network failure. -/
  | typeError
  /-- `fetch` rejected because the controller aborted the request. -/
  | abortError
  /-- `new Error(msg)` thrown by the code itself. -/
  | error (msg : String)
  /-- `response.json()` rejected: the body is not JSON. -/
  | syntaxError
  deriving DecidableEq

/-- What the environment does with one call of `fetch`. -/
inductive Outcome where
  /-- The request fails before the timer fires: `fetch` rejects. -/
  | networkError
  /-- The timer fires first, runs `controller.abort()`, and `fetch` rejects. -/
  | timedOut
  /-- A response arrives before the timer fires; `ok` is `response.ok` and
  `body` is what `response.json()` resolves to (`none`: it rejects). -/
  | response (ok : Bool) (body : Option JSValue)

/-- One call `fetch(url, { ...options, signal })`. -/
structure Request where
  url : String
  options : List (String × String)
  /-- The controller whose signal the request carries (its timer's id). -/
  signal : Nat
  deriving DecidableEq

/-- A timer created by `setTimeout` that has neither fired nor been cleared. -/
structure Timer where
  id : Nat
  delay : Nat
  deriving DecidableEq

/-- A line of diagnostic output. -/
inductive LogLine where
  /-- The line `Retrying... ${retries} attempts left` of `console.log`. -/
  | retrying (retries : Int)
  /-- The line `Fetch error:` with the error, of `console.error`. -/
  | fetchError (e : JSError)
  deriving DecidableEq

/-- The part of the browser that `fetchData` touches. -/
structure World where
  /-- The requests issued so far, oldest first. -/
  requests : List Request
  /-- The pending timers. -/
  timers : List Timer
  /-- The id the next `setTimeout` returns. -/
  nextTimerId : Nat
  /-- The console output, oldest first. -/
  console : List LogLine

/-- A fresh page: nothing requested, no timer, empty console. -/
def World.empty : World := ⟨[], [], 0, []⟩

/-- The call `setTimeout(cb, delay)`: a new pending timer; returns its id. -/
def setTimeout (delay : Nat) (w : World) : Nat × World :=
  (w.nextTimerId,
    { w with timers := w.timers ++ [⟨w.nextTimerId, delay⟩], nextTimerId := w.nextTimerId + 1 })

/-- The call `clearTimeout(id)`: the timer is no longer pending. -/
def clearTimeout (id : Nat) (w : World) : World :=
  { w with timers := w.timers.filter (fun t => t.id != id) }

/-- A timer that fires runs its callback and is no longer pending. -/
def fireTimer (id : Nat) (w : World) : World :=
  { w with timers := w.timers.filter (fun t => t.id != id) }

/-- Issue a request. -/
def issue (r : Request) (w : World) : World :=
  { w with requests := w.requests ++ [r] }

/-- Emit a console line. -/
def emit (l : LogLine) (w : World) : World :=
  { w with console := w.console ++ [l] }

/-- How an `async` function settles: its promise fulfils with a value or rejects. -/
inductive Settled where
  | fulfilled (v : JSValue)
  | rejected (e : JSError)

/-! ## Numbers -/

/-- Auxiliary search for `quantum`: the first power of two `q`, starting from
the given one, with `a / q < 2 ^ 53`. -/
def quantumAux : Nat → Nat → Nat → Nat
  | 0, _, q => q
  | fuel + 1, a, q => if a / q < 2 ^ 53 then q else quantumAux fuel a (2 * q)

/-- The spacing of the doubles around the magnitude `a`: the least power of two
`q` for which `a / q` fits the 53 bits of a significand. -/
def quantum (a : Nat) : Nat := quantumAux 1024 a 1

/-- The Number (IEEE 754 double) nearest to the integer `x`, ties going to the
even significand.  Integers of magnitude up to `2 ^ 53` are Numbers themselves.
The magnitude is taken below `2 ^ 1024`, where no rounding to infinity occurs. -/
def roundDouble (x : Int) : Int :=
  let a := x.natAbs
  if a ≤ 2 ^ 53 then x
  else
    let q := quantum a
    let m := a / q
    let r := a % q
    let m1 :=
      if 2 * r < q then m else if q < 2 * r then m + 1 else if m % 2 = 0 then m else m + 1
    x.sign * ((m1 * q : Nat) : Int)

/-- The subtraction `a - b` of two integer-valued Numbers. -/
def numberSub (a b : Int) : Int := roundDouble (a - b)

/-! ## fetchData -/

/-- The `try` block of `fetchData` (lines 98-103) against one outcome of the
network.  `Except.error e` is the error thrown inside the block. -/
def tryBlock (o : Outcome) (url : String) (options : List (String × String))
    (timeout : Nat) (w : World) : Except JSError JSValue × World :=
  -- const timeoutId = setTimeout(() => controller.abort(), timeout);
  let (timeoutId, w1) := setTimeout timeout w
  -- const response = await fetch(url, { ...options, signal: controller.signal });
  let w2 := issue ⟨url, options, timeoutId⟩ w1
  match o with
  | .networkError => (.error .typeError, w2)
  | .timedOut => (.error .abortError, fireTimer timeoutId w2)
  | .response ok body =>
    -- clearTimeout(timeoutId);
    let w3 := clearTimeout timeoutId w2
    -- if (!response.ok) throw new Error('Network response was not ok');
    if !ok then (.error (.error "Network response was not ok"), w3)
    else
      -- return await response.json();
      match body with
      | none => (.error .syntaxError, w3)
      | some v => (.ok v, w3)

/-- The function `fetchData(url, options, retries, timeout)` (lines 96-112).
`oracle 0` is the outcome of the first request, `oracle 1` of the second, and
so on.  `retries` is an integer-valued Number and `retries - 1` is the Number
subtraction.  The code's recursion need not end, so the run is cut after `fuel`
attempts: the first component is `none` when the call has not settled within
`fuel` attempts, and the world is the one reached by then. -/
def fetchData : Nat → (Nat → Outcome) → String → List (String × String) → Int → Nat → World →
    Option Settled × World
  | 0, _, _, _, _, _, w => (none, w)
  | fuel + 1, oracle, url, options, retries, timeout, w =>
    match tryBlock (oracle 0) url options timeout w with
    | (.ok v, w1) => (some (.fulfilled v), w1)
    | (.error e, w1) =>
      if 0 < retries then
        fetchData fuel (fun i => oracle (i + 1)) url options (numberSub retries 1) timeout
          (emit (.retrying retries) w1)
      else
        (some (.fulfilled .null), emit (.fetchError e) w1)

/-- The attempt fails in one of the three ways the retry policy names:
network error, abort on timeout, or a response whose status is not OK. -/
def Outcome.transient : Outcome → Bool
  | .networkError => true
  | .timedOut => true
  | .response ok _ => !ok

/-- The attempt does not produce a parsed body. -/
def Outcome.failed : Outcome → Bool
  | .response true (some _) => false
  | _ => true

/-- The error the `try` block throws on a failed attempt. -/
def Outcome.thrown : Outcome → JSError
  | .networkError => .typeError
  | .timedOut => .abortError
  | .response false _ => .error "Network response was not ok"
  | .response true _ => .syntaxError

/-! ## deferScripts -/

/-- A `script` element. -/
structure Script where
  /-- The identity of the DOM node. -/
  node : Nat
  /-- The element carries the attribute `data-defer`. -/
  dataDefer : Bool
  /-- The value of `dataset.src` (`none`: undefined). -/
  dataSrc : Option String
  /-- The `src` property. -/
  src : String
  /-- The `defer` property. -/
  defer : Bool
  deriving DecidableEq

/-- The document, as far as `deferScripts` sees it. -/
structure Document where
  /-- The script elements of the document, in document order. -/
  scripts : List Script
  /-- The identity the next created node gets. -/
  nextNode : Nat
  deriving DecidableEq

/-- Truthiness of `dataset.src`: defined and not the empty string. -/
def truthy : Option String → Bool
  | none => false
  | some s => s != ""

/-- The string a `dataset` value is when it is assigned to a string property. -/
def jsString : Option String → String
  | none => "undefined"
  | some s => s

/-- The selection `$$('script[data-defer]')`: a static list. -/
def selectDeferred (doc : Document) : List Script :=
  doc.scripts.filter (fun s => s.dataDefer)

/-- The call `document.createElement('script')`: a new, detached script. -/
def createScript (doc : Document) : Script × Document :=
  (⟨doc.nextNode, false, none, "", false⟩, { doc with nextNode := doc.nextNode + 1 })

/-- The call `document.body.appendChild(s)`: the script becomes the last one. -/
def appendChild (s : Script) (doc : Document) : Document :=
  { doc with scripts := doc.scripts ++ [s] }

/-- The call `script.remove()`: the node leaves the document. -/
def removeScript (script : Script) (doc : Document) : Document :=
  { doc with scripts := doc.scripts.filter (fun s => s.node != script.node) }

/-- The body of the `forEach` of `deferScripts` (lines 117-123). -/
def deferOne (doc : Document) (script : Script) : Document :=
  -- if (script.dataset.src) {
  if truthy script.dataSrc then
    -- const newScript = document.createElement('script');
    let (newScript, d1) := createScript doc
    -- newScript.src = script.dataset.src;
    let newScript := { newScript with src := jsString script.dataSrc }
    -- newScript.defer = true;
    let newScript := { newScript with defer := true }
    -- document.body.appendChild(newScript);
    let d2 := appendChild newScript d1
    -- script.remove();
    removeScript script d2
  else doc

/-- The function `deferScripts` (lines 115-125). -/
def deferScripts (doc : Document) : Document :=
  (selectDeferred doc).foldl deferOne doc

/-- The nodes of a document are distinct and older than the next created node. -/
def Document.WellFormed (doc : Document) : Prop :=
  (doc.scripts.map (fun s => s.node)).Nodup ∧ ∀ s ∈ doc.scripts, s.node < doc.nextNode

/-- The scripts `deferScripts` replaces: tagged `data-defer`, with a truthy `data-src`. -/
def replaced (s : Script) : Bool := s.dataDefer && truthy s.dataSrc

/-- The scripts created for the originals `ss`, the first with identity `n`. -/
def newScripts (n : Nat) : List Script → List Script
  | [] => []
  | s :: ss => ⟨n, false, none, jsString s.dataSrc, true⟩ :: newScripts (n + 1) ss

/-! ## lazyLoad -/

/-- An element of the page. -/
structure Element where
  /-- The identity of the DOM node. -/
  node : Nat
  tagName : String
  /-- The element carries the attribute `data-lazy`. -/
  dataLazy : Bool
  /-- The value of `dataset.src` (`none`: undefined). -/
  dataSrc : Option String
  /-- The `src` of the element (`none`: never set). -/
  src : Option String
  /-- How many times `src` has been assigned by the code. -/
  srcWrites : Nat
  deriving DecidableEq

/-- The page and the observer created by `lazyLoad`. -/
structure Page where
  elements : List Element
  /-- The nodes the observer observes. -/
  observed : List Nat
  deriving DecidableEq

/-- An `IntersectionObserverEntry`. -/
structure Entry where
  /-- The node of `entry.target`. -/
  target : Nat
  isIntersecting : Bool
  deriving DecidableEq

/-- The assignment `element.src = element.dataset.src`. -/
def assignSrc (el : Element) : Element :=
  { el with src := some (jsString el.dataSrc), srcWrites := el.srcWrites + 1 }

/-- What the callback does to the target element itself (lines 52-56). -/
def resolve (element : Element) : Element :=
  if element.tagName == "IMG" then assignSrc element
  else if element.tagName == "IFRAME" then assignSrc element
  else element

/-- The call `observer.observe(el)`. -/
def observe (p : Page) (el : Element) : Page :=
  if p.observed.contains el.node then p else { p with observed := p.observed ++ [el.node] }

/-- The call `observer.unobserve(element)`. -/
def unobserve (target : Nat) (p : Page) : Page :=
  { p with observed := p.observed.filter (fun n => n != target) }

/-- The body of `entries.forEach` in the observer callback (lines 50-58). -/
def onEntry (p : Page) (entry : Entry) : Page :=
  if entry.isIntersecting then
    unobserve entry.target
      { p with
        elements := p.elements.map (fun el => if el.node == entry.target then resolve el else el) }
  else p

/-- The observer callback (lines 48-59). -/
def callback (entries : List Entry) (p : Page) : Page :=
  entries.foldl onEntry p

/-- The browser delivers a batch of entries: it reports observed targets only. -/
def notify (p : Page) (batch : List Entry) : Page :=
  callback (batch.filter (fun e => p.observed.contains e.target)) p

/-- The browser delivers a stream of batches. -/
def run (batches : List (List Entry)) (p : Page) : Page :=
  batches.foldl notify p

/-- The function `lazyLoad` (lines 45-70); `hasObserver` is
`'IntersectionObserver' in window`. -/
def lazyLoad (hasObserver : Bool) (p : Page) : Page :=
  let lazyElements := p.elements.filter (fun el => el.dataLazy)
  if hasObserver then
    lazyElements.foldl observe p
  else
    lazyElements.foldl (fun q el =>
      if el.tagName == "IMG" || el.tagName == "IFRAME" then
        { q with
          elements := q.elements.map (fun x => if x.node == el.node then assignSrc x else x) }
      else q) p

/-- The element is an image or an iframe. -/
def isMedia (el : Element) : Bool := el.tagName == "IMG" || el.tagName == "IFRAME"

/-- The element after `k` assignments of `src` by the callback: an image or an
iframe has `src` set from `data-src`, any other element is as before. -/
def bump (k : Nat) (el : Element) : Element :=
  if isMedia el && decide (0 < k) then
    { el with src := some (jsString el.dataSrc), srcWrites := el.srcWrites + k }
  else el

/-- The number of intersecting entries for the node `n` in a batch. -/
def hits (n : Nat) (batch : List Entry) : Nat :=
  batch.countP (fun e => e.target == n && e.isIntersecting)

/-- The number of intersecting entries for `n` in the first batch that has one. -/
def firstHits (n : Nat) : List (List Entry) → Nat
  | [] => 0
  | b :: bs => if hits n b = 0 then firstHits n bs else hits n b

/-! ## Runs of fetchData: the traces -/

/-- The requests of `n` consecutive attempts starting with timer id `t`. -/
def attemptRequests (url : String) (options : List (String × String)) (t n : Nat) :
    List Request :=
  (List.range n).map (fun i => ⟨url, options, t + i⟩)

/-- The retry lines of `n` consecutive retries starting from `retries`. -/
def retryLines (retries : Int) (n : Nat) : List LogLine :=
  (List.range n).map (fun (i : Nat) => LogLine.retrying (retries - (i : Int)))

/-! ## Basic facts about one attempt -/

theorem Outcome.failed_eq_false_iff (o : Outcome) :
    o.failed = false ↔ ∃ v, o = .response true (some v) := by
  cases o with
  | networkError => simp [Outcome.failed]
  | timedOut => simp [Outcome.failed]
  | response ok body =>
    cases ok <;> cases body <;> simp [Outcome.failed]

theorem Outcome.failed_of_transient (o : Outcome) (h : o.transient = true) :
    o.failed = true := by
  cases o with
  | networkError => rfl
  | timedOut => rfl
  | response ok body =>
    cases ok <;> cases body <;> simp_all [Outcome.failed, Outcome.transient]

theorem tryBlock_fst_of_failed (o : Outcome) (url : String) (options : List (String × String))
    (timeout : Nat) (w : World) (h : o.failed = true) :
    (tryBlock o url options timeout w).1 = .error o.thrown := by
  cases o with
  | networkError => rfl
  | timedOut => rfl
  | response ok body =>
    cases ok <;> cases body <;> simp_all [Outcome.failed, Outcome.thrown, tryBlock, setTimeout]

theorem tryBlock_fst_of_body (url : String) (options : List (String × String))
    (timeout : Nat) (w : World) (v : JSValue) :
    (tryBlock (.response true (some v)) url options timeout w).1 = .ok v := by
  simp [tryBlock, setTimeout]

theorem tryBlock_requests (o : Outcome) (url : String) (options : List (String × String))
    (timeout : Nat) (w : World) :
    (tryBlock o url options timeout w).2.requests
      = w.requests ++ [⟨url, options, w.nextTimerId⟩] := by
  cases o with
  | networkError => rfl
  | timedOut => rfl
  | response ok body =>
    cases ok <;> cases body <;> simp [tryBlock, setTimeout, issue, clearTimeout]

theorem tryBlock_console (o : Outcome) (url : String) (options : List (String × String))
    (timeout : Nat) (w : World) :
    (tryBlock o url options timeout w).2.console = w.console := by
  cases o with
  | networkError => rfl
  | timedOut => rfl
  | response ok body =>
    cases ok <;> cases body <;> simp [tryBlock, setTimeout, issue, clearTimeout]

theorem tryBlock_nextTimerId (o : Outcome) (url : String) (options : List (String × String))
    (timeout : Nat) (w : World) :
    (tryBlock o url options timeout w).2.nextTimerId = w.nextTimerId + 1 := by
  cases o with
  | networkError => rfl
  | timedOut => rfl
  | response ok body =>
    cases ok <;> cases body <;> simp [tryBlock, setTimeout, issue, clearTimeout]

/-! ## Number subtraction -/

/-- Up to `2 ^ 53` the subtraction `retries - 1` is exact. -/
theorem numberSub_one_exact (r : Int) (h0 : 0 < r) (h : r ≤ 2 ^ 53) :
    numberSub r 1 = r - 1 := by
  unfold numberSub roundDouble
  have hr : (r - 1).natAbs ≤ 2 ^ 53 := by omega
  dsimp only
  rw [if_pos hr]

/-- At `2 ^ 54` the subtraction `retries - 1` gives `retries` back. -/
theorem numberSub_one_stuck : numberSub 18014398509481984 1 = 18014398509481984 := by
  decide

/-- At `2 ^ 53 + 2` the subtraction `retries - 1` gives `2 ^ 53`. -/
theorem numberSub_one_skips : numberSub 9007199254740994 1 = 9007199254740992 := by
  decide

/-! ## Unfolding fetchData by one attempt -/

/-- An attempt that yields a parsed body ends the call with that body. -/
theorem fetchData_of_body (fuel : Nat) (oracle : Nat → Outcome) (url : String)
    (options : List (String × String)) (retries : Int) (timeout : Nat) (w : World)
    (v : JSValue) (h : oracle 0 = .response true (some v)) :
    fetchData (fuel + 1) oracle url options retries timeout w
      = (some (.fulfilled v), (tryBlock (oracle 0) url options timeout w).2) := by
  have h1 : (tryBlock (oracle 0) url options timeout w).1 = .ok v := by
    rw [h]; exact tryBlock_fst_of_body url options timeout w v
  rw [fetchData]
  split
  · next v1 w1 heq =>
    rw [heq] at h1
    simp only [Except.ok.injEq] at h1
    rw [heq, h1]
  · next e w1 heq =>
    rw [heq] at h1
    simp at h1

/-- A failed attempt with retries left logs the retry line and recurses. -/
theorem fetchData_of_failed_retry (fuel : Nat) (oracle : Nat → Outcome) (url : String)
    (options : List (String × String)) (retries : Int) (timeout : Nat) (w : World)
    (h : (oracle 0).failed = true) (hr : 0 < retries) :
    fetchData (fuel + 1) oracle url options retries timeout w
      = fetchData fuel (fun i => oracle (i + 1)) url options (numberSub retries 1) timeout
          (emit (.retrying retries) (tryBlock (oracle 0) url options timeout w).2) := by
  have h1 := tryBlock_fst_of_failed (oracle 0) url options timeout w h
  rw [fetchData]
  split
  · next v1 w1 heq =>
    rw [heq] at h1
    simp at h1
  · next e w1 heq =>
    rw [heq]
    simp [hr]

/-- A failed attempt with no retry left logs the error and yields `null`. -/
theorem fetchData_of_failed_last (fuel : Nat) (oracle : Nat → Outcome) (url : String)
    (options : List (String × String)) (retries : Int) (timeout : Nat) (w : World)
    (h : (oracle 0).failed = true) (hr : retries ≤ 0) :
    fetchData (fuel + 1) oracle url options retries timeout w
      = (some (.fulfilled .null),
          emit (.fetchError (oracle 0).thrown) (tryBlock (oracle 0) url options timeout w).2) := by
  have h1 := tryBlock_fst_of_failed (oracle 0) url options timeout w h
  rw [fetchData]
  split
  · next v1 w1 heq =>
    rw [heq] at h1
    simp at h1
  · next e w1 heq =>
    rw [heq] at h1
    simp only [Except.error.injEq] at h1
    rw [heq, h1]
    simp [not_lt.mpr hr]

theorem emit_tryBlock_requests_length (l : LogLine) (o : Outcome) (url : String)
    (options : List (String × String)) (timeout : Nat) (w : World) :
    (emit l (tryBlock o url options timeout w).2).requests.length = w.requests.length + 1 := by
  simp [emit, tryBlock_requests]

/-! ## Runs of fetchData -/

theorem attemptRequests_length (url : String) (options : List (String × String)) (t n : Nat) :
    (attemptRequests url options t n).length = n := by
  simp [attemptRequests]

theorem retryLines_length (retries : Int) (n : Nat) : (retryLines retries n).length = n := by
  simp [retryLines]

theorem attemptRequests_succ (url : String) (options : List (String × String)) (t n : Nat) :
    attemptRequests url options t (n + 1)
      = ⟨url, options, t⟩ :: attemptRequests url options (t + 1) n := by
  simp only [attemptRequests, List.range_succ_eq_map, List.map_cons, List.map_map,
    Nat.add_zero, List.cons.injEq, true_and]
  apply List.map_congr_left
  intro i _
  simp only [Function.comp_apply, Request.mk.injEq, true_and]
  omega

theorem retryLines_succ (retries : Int) (n : Nat) :
    retryLines retries (n + 1) = .retrying retries :: retryLines (retries - 1) n := by
  simp only [retryLines, List.range_succ_eq_map, List.map_cons, List.map_map,
    Nat.cast_zero, sub_zero, List.cons.injEq, true_and]
  apply List.map_congr_left
  intro i _
  simp only [Function.comp_apply, LogLine.retrying.injEq, Nat.cast_succ]
  ring

/-- When `retries ≤ 2 ^ 53`, the first `j ≤ retries` attempts fail and attempt
`j` yields the body `v`, a run of more than `j` attempts returns `v` after
`j + 1` requests and `j` retry lines. -/
theorem fetchData_succeeds (url : String) (options : List (String × String)) (timeout : Nat)
    (v : JSValue) (j : Nat) :
    ∀ (fuel : Nat) (oracle : Nat → Outcome) (retries : Int) (w : World),
      retries ≤ 2 ^ 53 →
      j ≤ retries.toNat →
      j < fuel →
      (∀ i, i < j → (oracle i).failed = true) →
      oracle j = .response true (some v) →
      (fetchData fuel oracle url options retries timeout w).1 = some (.fulfilled v)
      ∧ (fetchData fuel oracle url options retries timeout w).2.requests
          = w.requests ++ attemptRequests url options w.nextTimerId (j + 1)
      ∧ (fetchData fuel oracle url options retries timeout w).2.console
          = w.console ++ retryLines retries j := by
  induction j with
  | zero =>
    intro fuel oracle retries w _ _ hfuel _ hv
    obtain ⟨f, rfl⟩ : ∃ f, fuel = f + 1 := ⟨fuel - 1, by omega⟩
    rw [fetchData_of_body f oracle url options retries timeout w v hv]
    simp [tryBlock_requests, tryBlock_console, attemptRequests, retryLines, List.range_succ]
  | succ j ih =>
    intro fuel oracle retries w hb hr hfuel hf hv
    obtain ⟨f, rfl⟩ : ∃ f, fuel = f + 1 := ⟨fuel - 1, by omega⟩
    have h0 : (oracle 0).failed = true := hf 0 (Nat.succ_pos j)
    have hpos : 0 < retries := by omega
    rw [fetchData_of_failed_retry f oracle url options retries timeout w h0 hpos,
      numberSub_one_exact retries hpos hb]
    obtain ⟨a, b, c⟩ := ih f (fun i => oracle (i + 1)) (retries - 1)
      (emit (.retrying retries) (tryBlock (oracle 0) url options timeout w).2)
      (by omega) (by omega) (by omega) (fun i hi => hf (i + 1) (Nat.succ_lt_succ hi)) hv
    refine ⟨a, ?_, ?_⟩
    · rw [b, attemptRequests_succ url options w.nextTimerId (j + 1)]
      simp [emit, tryBlock_requests, tryBlock_nextTimerId]
    · rw [c, retryLines_succ]
      simp [emit, tryBlock_console]

/-- When `retries ≤ 2 ^ 53` and the attempts `0 .. n` all fail, where
`n = retries.toNat`, a run of more than `n` attempts returns `null` after
`n + 1` requests, `n` retry lines and one error line. -/
theorem fetchData_exhausts (url : String) (options : List (String × String)) (timeout : Nat)
    (n : Nat) :
    ∀ (fuel : Nat) (oracle : Nat → Outcome) (retries : Int) (w : World),
      retries ≤ 2 ^ 53 →
      retries.toNat = n →
      n < fuel →
      (∀ i, i ≤ n → (oracle i).failed = true) →
      (fetchData fuel oracle url options retries timeout w).1 = some (.fulfilled .null)
      ∧ (fetchData fuel oracle url options retries timeout w).2.requests
          = w.requests ++ attemptRequests url options w.nextTimerId (n + 1)
      ∧ (fetchData fuel oracle url options retries timeout w).2.console
          = w.console ++ retryLines retries n ++ [.fetchError (oracle n).thrown] := by
  induction n with
  | zero =>
    intro fuel oracle retries w _ hr hfuel hf
    obtain ⟨f, rfl⟩ : ∃ f, fuel = f + 1 := ⟨fuel - 1, by omega⟩
    have h0 : (oracle 0).failed = true := hf 0 (Nat.le_refl 0)
    rw [fetchData_of_failed_last f oracle url options retries timeout w h0 (by omega)]
    simp [emit, tryBlock_requests, tryBlock_console, attemptRequests, retryLines, List.range_succ]
  | succ n ih =>
    intro fuel oracle retries w hb hr hfuel hf
    obtain ⟨f, rfl⟩ : ∃ f, fuel = f + 1 := ⟨fuel - 1, by omega⟩
    have h0 : (oracle 0).failed = true := hf 0 (Nat.zero_le _)
    have hpos : 0 < retries := by omega
    rw [fetchData_of_failed_retry f oracle url options retries timeout w h0 hpos,
      numberSub_one_exact retries hpos hb]
    obtain ⟨a, b, c⟩ := ih f (fun i => oracle (i + 1)) (retries - 1)
      (emit (.retrying retries) (tryBlock (oracle 0) url options timeout w).2)
      (by omega) (by omega) (by omega) (fun i hi => hf (i + 1) (Nat.succ_le_succ hi))
    refine ⟨a, ?_, ?_⟩
    · rw [b, attemptRequests_succ url options w.nextTimerId (n + 1)]
      simp [emit, tryBlock_requests, tryBlock_nextTimerId]
    · rw [c, retryLines_succ]
      simp [emit, tryBlock_console]

/-- Either the attempts `0 .. n` all fail or there is a first one that yields a body. -/
theorem first_body_or_all_failed (oracle : Nat → Outcome) (n : Nat) :
    (∀ i, i ≤ n → (oracle i).failed = true)
    ∨ ∃ j v, j ≤ n ∧ (∀ i, i < j → (oracle i).failed = true)
        ∧ oracle j = .response true (some v) := by
  induction n with
  | zero =>
    cases h : (oracle 0).failed with
    | true =>
      left
      intro i hi
      have : i = 0 := by omega
      rw [this]; exact h
    | false =>
      right
      obtain ⟨v, hv⟩ := (Outcome.failed_eq_false_iff _).mp h
      exact ⟨0, v, Nat.le_refl 0, fun i hi => absurd hi (Nat.not_lt_zero i), hv⟩
  | succ n ih =>
    rcases ih with hall | ⟨j, v, hj, hlt, hv⟩
    · cases h : (oracle (n + 1)).failed with
      | true =>
        left
        intro i hi
        rcases Nat.lt_or_ge i (n + 1) with h1 | h1
        · exact hall i (Nat.lt_succ_iff.mp h1)
        · have : i = n + 1 := by omega
          rw [this]; exact h
      | false =>
        right
        obtain ⟨v, hv⟩ := (Outcome.failed_eq_false_iff _).mp h
        exact ⟨n + 1, v, Nat.le_refl _, fun i hi => hall i (Nat.lt_succ_iff.mp hi), hv⟩
    · exact Or.inr ⟨j, v, Nat.le_succ_of_le hj, hlt, hv⟩


/-- Whenever a run settles, the promise is fulfilled, with `null` or with the
parsed body of a response; this holds for every `retries`. -/
theorem fetchData_settled_value (url : String) (options : List (String × String))
    (timeout : Nat) (fuel : Nat) :
    ∀ (oracle : Nat → Outcome) (retries : Int) (w : World) (r : Settled),
      (fetchData fuel oracle url options retries timeout w).1 = some r →
      r = .fulfilled .null ∨ ∃ j v, oracle j = .response true (some v) ∧ r = .fulfilled v := by
  induction fuel with
  | zero =>
    intro oracle retries w r h
    simp [fetchData] at h
  | succ f ih =>
    intro oracle retries w r h
    cases hf : (oracle 0).failed with
    | false =>
      obtain ⟨v, hv⟩ := (Outcome.failed_eq_false_iff _).mp hf
      rw [fetchData_of_body f oracle url options retries timeout w v hv] at h
      simp only [Option.some.injEq] at h
      exact Or.inr ⟨0, v, hv, h.symm⟩
    | true =>
      rcases lt_or_le 0 retries with hr | hr
      · rw [fetchData_of_failed_retry f oracle url options retries timeout w hf hr] at h
        rcases ih _ _ _ r h with h1 | ⟨j, v, hj, hv⟩
        · exact Or.inl h1
        · exact Or.inr ⟨j + 1, v, hj, hv⟩
      · rw [fetchData_of_failed_last f oracle url options retries timeout w hf hr] at h
        simp only [Option.some.injEq] at h
        exact Or.inl h.symm

/-- A run never takes requests back, and issues at most one per attempt. -/
theorem fetchData_requests_mono (url : String) (options : List (String × String))
    (timeout : Nat) (fuel : Nat) :
    ∀ (oracle : Nat → Outcome) (retries : Int) (w : World),
      w.requests.length ≤ (fetchData fuel oracle url options retries timeout w).2.requests.length
      ∧ (fetchData fuel oracle url options retries timeout w).2.requests.length
          ≤ w.requests.length + fuel := by
  induction fuel with
  | zero =>
    intro oracle retries w
    simp [fetchData]
  | succ f ih =>
    intro oracle retries w
    cases hf : (oracle 0).failed with
    | false =>
      obtain ⟨v, hv⟩ := (Outcome.failed_eq_false_iff _).mp hf
      rw [fetchData_of_body f oracle url options retries timeout w v hv]
      simp [tryBlock_requests]
    | true =>
      rcases lt_or_le 0 retries with hr | hr
      · rw [fetchData_of_failed_retry f oracle url options retries timeout w hf hr]
        have := ih (fun i => oracle (i + 1)) (numberSub retries 1)
          (emit (.retrying retries) (tryBlock (oracle 0) url options timeout w).2)
        rw [emit_tryBlock_requests_length] at this
        omega
      · rw [fetchData_of_failed_last f oracle url options retries timeout w hf hr]
        simp [emit, tryBlock_requests]

/-- For `retries ≤ 2 ^ 53`, a run of more than `retries.toNat` attempts settles,
after at least one and at most `retries.toNat + 1` requests. -/
theorem fetchData_settles (url : String) (options : List (String × String))
    (timeout : Nat) (n : Nat) :
    ∀ (fuel : Nat) (oracle : Nat → Outcome) (retries : Int) (w : World),
      retries ≤ 2 ^ 53 →
      retries.toNat = n →
      n < fuel →
      (∃ v, (fetchData fuel oracle url options retries timeout w).1 = some (.fulfilled v))
      ∧ w.requests.length + 1
          ≤ (fetchData fuel oracle url options retries timeout w).2.requests.length
      ∧ (fetchData fuel oracle url options retries timeout w).2.requests.length
          ≤ w.requests.length + (n + 1) := by
  induction n with
  | zero =>
    intro fuel oracle retries w _ hr hfuel
    obtain ⟨f, rfl⟩ : ∃ f, fuel = f + 1 := ⟨fuel - 1, by omega⟩
    cases h : (oracle 0).failed with
    | true =>
      rw [fetchData_of_failed_last f oracle url options retries timeout w h (by omega)]
      simp [emit, tryBlock_requests]
    | false =>
      obtain ⟨v, hv⟩ := (Outcome.failed_eq_false_iff _).mp h
      rw [fetchData_of_body f oracle url options retries timeout w v hv]
      simp [tryBlock_requests]
  | succ n ih =>
    intro fuel oracle retries w hb hr hfuel
    obtain ⟨f, rfl⟩ : ∃ f, fuel = f + 1 := ⟨fuel - 1, by omega⟩
    cases h : (oracle 0).failed with
    | true =>
      have hpos : 0 < retries := by omega
      rw [fetchData_of_failed_retry f oracle url options retries timeout w h hpos,
        numberSub_one_exact retries hpos hb]
      obtain ⟨a, b, c⟩ := ih f (fun i => oracle (i + 1)) (retries - 1)
        (emit (.retrying retries) (tryBlock (oracle 0) url options timeout w).2)
        (by omega) (by omega) (by omega)
      rw [emit_tryBlock_requests_length] at b c
      exact ⟨a, by omega, by omega⟩
    | false =>
      obtain ⟨v, hv⟩ := (Outcome.failed_eq_false_iff _).mp h
      rw [fetchData_of_body f oracle url options retries timeout w v hv]
      simp [tryBlock_requests]

/-- For `retries ≤ 2 ^ 53`: after `m ≤ retries` failed attempts a further
request is issued, when the run has room for it. -/
theorem fetchData_requests_after_failures (url : String) (options : List (String × String))
    (timeout : Nat) (m : Nat) :
    ∀ (fuel : Nat) (oracle : Nat → Outcome) (retries : Int) (w : World),
      retries ≤ 2 ^ 53 →
      m ≤ retries.toNat →
      m < fuel →
      (∀ i, i < m → (oracle i).failed = true) →
      w.requests.length + (m + 1)
        ≤ (fetchData fuel oracle url options retries timeout w).2.requests.length := by
  induction m with
  | zero =>
    intro fuel oracle retries w _ _ hfuel _
    obtain ⟨f, rfl⟩ : ∃ f, fuel = f + 1 := ⟨fuel - 1, by omega⟩
    cases hf : (oracle 0).failed with
    | false =>
      obtain ⟨v, hv⟩ := (Outcome.failed_eq_false_iff _).mp hf
      rw [fetchData_of_body f oracle url options retries timeout w v hv]
      simp [tryBlock_requests]
    | true =>
      rcases lt_or_le 0 retries with hr | hr
      · rw [fetchData_of_failed_retry f oracle url options retries timeout w hf hr]
        have := (fetchData_requests_mono url options timeout f (fun i => oracle (i + 1))
          (numberSub retries 1)
          (emit (.retrying retries) (tryBlock (oracle 0) url options timeout w).2)).1
        rw [emit_tryBlock_requests_length] at this
        omega
      · rw [fetchData_of_failed_last f oracle url options retries timeout w hf hr]
        simp [emit, tryBlock_requests]
  | succ m ih =>
    intro fuel oracle retries w hb hr hfuel hf
    obtain ⟨f, rfl⟩ : ∃ f, fuel = f + 1 := ⟨fuel - 1, by omega⟩
    have h0 : (oracle 0).failed = true := hf 0 (Nat.succ_pos m)
    have hpos : 0 < retries := by omega
    rw [fetchData_of_failed_retry f oracle url options retries timeout w h0 hpos,
      numberSub_one_exact retries hpos hb]
    have := ih f (fun i => oracle (i + 1)) (retries - 1)
      (emit (.retrying retries) (tryBlock (oracle 0) url options timeout w).2)
      (by omega) (by omega) (by omega) (fun i hi => hf (i + 1) (Nat.succ_lt_succ hi))
    rw [emit_tryBlock_requests_length] at this
    omega

/-- Where `retries - 1` gives `retries` back, a target whose attempts all fail
is retried for ever: after any number of attempts the call has not settled, it
has issued one request per attempt and logged the same retry line each time. -/
theorem fetchData_stuck (url : String) (options : List (String × String)) (timeout : Nat)
    (retries : Int) (hpos : 0 < retries) (hstuck : numberSub retries 1 = retries)
    (fuel : Nat) :
    ∀ (oracle : Nat → Outcome) (w : World),
      (∀ i, (oracle i).failed = true) →
      (fetchData fuel oracle url options retries timeout w).1 = none
      ∧ (fetchData fuel oracle url options retries timeout w).2.requests.length
          = w.requests.length + fuel
      ∧ (fetchData fuel oracle url options retries timeout w).2.console
          = w.console ++ List.replicate fuel (.retrying retries) := by
  induction fuel with
  | zero =>
    intro oracle w _
    simp [fetchData]
  | succ f ih =>
    intro oracle w hf
    rw [fetchData_of_failed_retry f oracle url options retries timeout w (hf 0) hpos, hstuck]
    obtain ⟨a, b, c⟩ := ih (fun i => oracle (i + 1))
      (emit (.retrying retries) (tryBlock (oracle 0) url options timeout w).2)
      (fun i => hf (i + 1))
    refine ⟨a, ?_, ?_⟩
    · rw [b, emit_tryBlock_requests_length]
      omega
    · rw [c]
      simp [emit, tryBlock_console, List.replicate_succ]

/-! ## The contract of fetchData -/

/-- C1, as stated, fails: with `retries = 2 ^ 54` the subtraction `retries - 1`
gives `retries` back, so against a target that always fails `fetchData` never
returns `null`, and after `2 ^ 54 + 2` attempts it has issued `2 ^ 54 + 2`
requests, more than `N + 1`, and has not settled. -/
theorem fetchData_huge_retries_never_returns :
    (¬ ∃ fuel, (fetchData fuel (fun _ => Outcome.networkError) "https://api.example.com/data" []
        18014398509481984 5000 World.empty).1 = some (.fulfilled .null))
    ∧ (fetchData 18014398509481986 (fun _ => Outcome.networkError)
        "https://api.example.com/data" [] 18014398509481984 5000 World.empty).2.requests.length
        = 18014398509481986 := by
  constructor
  · rintro ⟨fuel, h⟩
    have hs := (fetchData_stuck "https://api.example.com/data" [] 5000 18014398509481984
      (by decide) numberSub_one_stuck fuel (fun _ => Outcome.networkError) World.empty
      (fun _ => rfl)).1
    rw [hs] at h
    cases h
  · have hs := (fetchData_stuck "https://api.example.com/data" [] 5000 18014398509481984
      (by decide) numberSub_one_stuck 18014398509481986 (fun _ => Outcome.networkError)
      World.empty (fun _ => rfl)).2.1
    rw [hs]
    rfl

/-- C1, amended: for `0 ≤ N ≤ 2 ^ 53`, if each of the attempts `0 .. N` fails by
a network error, by an abort on timeout or by a non-OK status, then
`fetchData(url, options, N, timeout)` issues exactly `N + 1` requests, all for
`url` with `options`, and returns `null`. -/
theorem fetchData_permanent_failure (fuel : Nat) (oracle : Nat → Outcome) (url : String)
    (options : List (String × String)) (N : Nat) (timeout : Nat) (w : World)
    (hN : N ≤ 2 ^ 53) (hfuel : N < fuel)
    (hfail : ∀ i, i ≤ N → (oracle i).transient = true) :
    (fetchData fuel oracle url options (N : Int) timeout w).1 = some (.fulfilled .null)
    ∧ (fetchData fuel oracle url options (N : Int) timeout w).2.requests
        = w.requests ++ attemptRequests url options w.nextTimerId (N + 1)
    ∧ (fetchData fuel oracle url options (N : Int) timeout w).2.requests.length
        = w.requests.length + (N + 1) := by
  obtain ⟨a, b, _⟩ := fetchData_exhausts url options timeout N fuel oracle (N : Int) w
    (by omega) (Int.toNat_ofNat N) hfuel
    (fun i hi => Outcome.failed_of_transient _ (hfail i hi))
  refine ⟨a, b, ?_⟩
  rw [b, List.length_append, attemptRequests_length]

/-- With `retries = 2` and a target that always times out, three requests are
issued and the result is `null`. -/
theorem fetchData_permanent_failure_witness :
    (2 ≤ 2 ^ 53) ∧ (2 < 3)
    ∧ (∀ i, i ≤ 2 → ((fun _ => Outcome.timedOut) i).transient = true)
    ∧ (fetchData 3 (fun _ => Outcome.timedOut) "https://api.example.com/data" []
        ((2 : Nat) : Int) 100 World.empty).1 = some (.fulfilled .null)
    ∧ (fetchData 3 (fun _ => Outcome.timedOut) "https://api.example.com/data" []
        ((2 : Nat) : Int) 100 World.empty).2.requests
        = World.empty.requests
          ++ attemptRequests "https://api.example.com/data" [] World.empty.nextTimerId (2 + 1)
    ∧ (fetchData 3 (fun _ => Outcome.timedOut) "https://api.example.com/data" []
        ((2 : Nat) : Int) 100 World.empty).2.requests.length
        = World.empty.requests.length + (2 + 1) :=
  ⟨by decide, by decide, fun _ _ => rfl,
    fetchData_permanent_failure 3 (fun _ => Outcome.timedOut) "https://api.example.com/data" []
      2 100 World.empty (by decide) (by decide) (fun _ _ => rfl)⟩

/-- C2, as stated, fails: with `N = 2 ^ 53 + 2` the first subtraction
`retries - 1` gives `2 ^ 53`, one attempt is lost, and when the attempts
`1 .. N` fail and attempt `k = N + 1` would succeed, `fetchData` returns `null`
after `N` requests and never makes attempt `k`. -/
theorem fetchData_loses_attempt_counterexample :
    ((fun i => if i = 9007199254740994 then Outcome.response true (some (JSValue.bool true))
        else Outcome.networkError) 9007199254740994
      = Outcome.response true (some (JSValue.bool true)))
    ∧ (fetchData 9007199254740995
        (fun i => if i = 9007199254740994 then Outcome.response true (some (JSValue.bool true))
          else Outcome.networkError)
        "https://api.example.com/data" [] 9007199254740994 5000 World.empty).1
        = some (.fulfilled .null)
    ∧ (fetchData 9007199254740995
        (fun i => if i = 9007199254740994 then Outcome.response true (some (JSValue.bool true))
          else Outcome.networkError)
        "https://api.example.com/data" [] 9007199254740994 5000 World.empty).2.requests.length
        = 9007199254740994 := by
  have hstep := fetchData_of_failed_retry 9007199254740994
    (fun i => if i = 9007199254740994 then Outcome.response true (some (JSValue.bool true))
      else Outcome.networkError)
    "https://api.example.com/data" [] 9007199254740994 5000 World.empty rfl (by decide)
  rw [numberSub_one_skips] at hstep
  have hfuel : (9007199254740994 + 1 : Nat) = 9007199254740995 := by norm_num
  rw [hfuel] at hstep
  obtain ⟨a, b, _⟩ := fetchData_exhausts "https://api.example.com/data" [] 5000
    9007199254740992 9007199254740994
    (fun i => (fun i => if i = 9007199254740994
      then Outcome.response true (some (JSValue.bool true))
      else Outcome.networkError) (i + 1))
    9007199254740992
    (emit (.retrying 9007199254740994)
      (tryBlock ((fun i => if i = 9007199254740994
        then Outcome.response true (some (JSValue.bool true))
        else Outcome.networkError) 0) "https://api.example.com/data" [] 5000 World.empty).2)
    (by norm_num) (by decide) (by norm_num)
    (fun i hi => by
      have hne : ¬ (i + 1 = 9007199254740994) := by omega
      simp only [hne, if_false]
      rfl)
  refine ⟨by simp, ?_, ?_⟩
  · rw [hstep]; exact a
  · rw [hstep, b, List.length_append, attemptRequests_length, emit_tryBlock_requests_length]
    rfl

/-- C2, amended: for `0 ≤ N ≤ 2 ^ 53`, if the attempts `1 .. k-1` fail and
attempt `k ≤ N + 1` receives an OK response whose body parses to `v`, then
`fetchData(url, options, N, timeout)` issues exactly `k` requests and returns
`v`. -/
theorem fetchData_success_on_attempt (fuel : Nat) (oracle : Nat → Outcome) (url : String)
    (options : List (String × String)) (N : Nat) (timeout : Nat) (w : World)
    (k : Nat) (v : JSValue) (hN : N ≤ 2 ^ 53) (hfuel : k ≤ fuel) (hk1 : 1 ≤ k)
    (hk : k ≤ N + 1)
    (hfail : ∀ i, 1 ≤ i → i ≤ k - 1 → (oracle (i - 1)).failed = true)
    (hok : oracle (k - 1) = .response true (some v)) :
    (fetchData fuel oracle url options (N : Int) timeout w).1 = some (.fulfilled v)
    ∧ (fetchData fuel oracle url options (N : Int) timeout w).2.requests.length
        = w.requests.length + k := by
  obtain ⟨a, b, _⟩ := fetchData_succeeds url options timeout v (k - 1) fuel oracle (N : Int) w
    (by omega) (by simp only [Int.toNat_ofNat]; omega) (by omega)
    (fun i hi => by
      have := hfail (i + 1) (Nat.succ_pos i) (by omega)
      simpa using this)
    hok
  refine ⟨a, ?_⟩
  rw [b, List.length_append, attemptRequests_length]
  omega

/-- The second of three attempts returns `{"ok": true}`: two requests are issued
and that value is returned. -/
theorem fetchData_success_on_attempt_witness :
    (2 ≤ 2 ^ 53) ∧ (2 ≤ 3) ∧ (1 ≤ 2) ∧ (2 ≤ 2 + 1)
    ∧ (∀ i, 1 ≤ i → i ≤ 2 - 1 →
        ((fun j => if j = 1 then Outcome.response true (some (JSValue.obj [("ok", .bool true)]))
          else Outcome.timedOut) (i - 1)).failed = true)
    ∧ (fetchData 3
        (fun j => if j = 1 then Outcome.response true (some (JSValue.obj [("ok", .bool true)]))
          else Outcome.timedOut)
        "https://api.example.com/data" [] ((2 : Nat) : Int) 100 World.empty).1
        = some (.fulfilled (JSValue.obj [("ok", .bool true)]))
    ∧ (fetchData 3
        (fun j => if j = 1 then Outcome.response true (some (JSValue.obj [("ok", .bool true)]))
          else Outcome.timedOut)
        "https://api.example.com/data" [] ((2 : Nat) : Int) 100 World.empty).2.requests.length
        = World.empty.requests.length + 2 :=
  have hfail : ∀ i, 1 ≤ i → i ≤ 2 - 1 →
      ((fun j => if j = 1 then Outcome.response true (some (JSValue.obj [("ok", .bool true)]))
        else Outcome.timedOut) (i - 1)).failed = true := by
    intro i h1 h2
    have : i = 1 := by omega
    subst this
    rfl
  ⟨by decide, by decide, by decide, by decide, hfail,
    fetchData_success_on_attempt 3 _ "https://api.example.com/data" [] 2 100 World.empty 2
      (JSValue.obj [("ok", .bool true)]) (by decide) (by decide) (by decide) (by decide)
      hfail rfl⟩

/-- C3: `fetchData` never raises to its caller: for every `retries` and every
sequence of attempt outcomes, whenever the call settles its promise is not
rejected but fulfilled, with `null` or with the parsed body of a response; and
for `retries ≤ 2 ^ 53` the call does settle, within `max(retries, 0) + 1`
attempts. -/
theorem fetchData_never_raises (fuel : Nat) (oracle : Nat → Outcome) (url : String)
    (options : List (String × String)) (retries : Int) (timeout : Nat) (w : World) :
    (∀ r, (fetchData fuel oracle url options retries timeout w).1 = some r →
      (∀ e, r ≠ .rejected e)
      ∧ (r = .fulfilled .null
        ∨ ∃ j v, oracle j = .response true (some v) ∧ r = .fulfilled v))
    ∧ (retries ≤ 2 ^ 53 → retries.toNat < fuel →
        ∃ v, (fetchData fuel oracle url options retries timeout w).1 = some (.fulfilled v)) := by
  constructor
  · intro r hr
    have h := fetchData_settled_value url options timeout fuel oracle retries w r hr
    refine ⟨?_, h⟩
    intro e he
    rcases h with h | ⟨_, _, _, h⟩ <;> rw [h] at he <;> cases he
  · intro hb hfuel
    exact (fetchData_settles url options timeout retries.toNat fuel oracle retries w hb rfl
      hfuel).1

/-- C4, as stated, fails: the first attempt receives an OK response whose body
does not parse, and with one retry left `fetchData` issues a second request and
returns its body; the parse error does not reach the caller. -/
theorem parse_error_is_retried_counterexample :
    (fetchData 2
      (fun j => if j = 0 then Outcome.response true none
        else Outcome.response true (some (JSValue.bool true)))
      "https://api.example.com/data" [] 1 5000 World.empty).1
      = some (.fulfilled (JSValue.bool true))
    ∧ (fetchData 2
      (fun j => if j = 0 then Outcome.response true none
        else Outcome.response true (some (JSValue.bool true)))
      "https://api.example.com/data" [] 1 5000 World.empty).2.requests.length = 2
    ∧ (fetchData 2
      (fun j => if j = 0 then Outcome.response true none
        else Outcome.response true (some (JSValue.bool true)))
      "https://api.example.com/data" [] 1 5000 World.empty).1 ≠ some (.rejected .syntaxError) := by
  obtain ⟨a, b, _⟩ := fetchData_succeeds "https://api.example.com/data" [] 5000
    (JSValue.bool true) 1 2
    (fun j => if j = 0 then Outcome.response true none
      else Outcome.response true (some (JSValue.bool true)))
    1 World.empty (by norm_num) (by decide) (by decide)
    (fun i hi => by
      have : i = 0 := by omega
      subst this
      rfl)
    rfl
  refine ⟨a, ?_, ?_⟩
  · rw [b]; rfl
  · rw [a]; intro h; cases h

/-- C4, amended: an OK response whose body fails to parse is a failed attempt
like any other.  If it is attempt `j` (counted from 0, after `j` failed
attempts) of a call with `retries = N`, `j ≤ N ≤ 2 ^ 53`, then the promise is
never rejected; when `j < N` a further request is issued; when `j = N` the call
issues `N + 1` requests in all, logs the parse error as the fetch error and
returns `null`. -/
theorem fetchData_parse_failure (fuel : Nat) (oracle : Nat → Outcome) (url : String)
    (options : List (String × String)) (N : Nat) (timeout : Nat) (w : World) (j : Nat)
    (hN : N ≤ 2 ^ 53) (hfuel : N < fuel)
    (hj : j ≤ N) (hfail : ∀ i, i < j → (oracle i).failed = true)
    (hbad : oracle j = .response true none) :
    (∃ v, (fetchData fuel oracle url options (N : Int) timeout w).1 = some (.fulfilled v))
    ∧ (∀ e, (fetchData fuel oracle url options (N : Int) timeout w).1 ≠ some (.rejected e))
    ∧ (j < N → w.requests.length + (j + 2)
        ≤ (fetchData fuel oracle url options (N : Int) timeout w).2.requests.length)
    ∧ (j = N →
        (fetchData fuel oracle url options (N : Int) timeout w).1 = some (.fulfilled .null)
        ∧ (fetchData fuel oracle url options (N : Int) timeout w).2.requests.length
            = w.requests.length + (N + 1)
        ∧ (fetchData fuel oracle url options (N : Int) timeout w).2.console
            = w.console ++ retryLines (N : Int) N ++ [.fetchError .syntaxError]) := by
  have hfail1 : ∀ i, i < j + 1 → (oracle i).failed = true := by
    intro i hi
    rcases Nat.lt_or_ge i j with h | h
    · exact hfail i h
    · have : i = j := by omega
      rw [this, hbad]; rfl
  have hset := (fetchData_settles url options timeout (N : Int).toNat fuel oracle N w
    (by omega) rfl (by simp only [Int.toNat_ofNat]; exact hfuel)).1
  refine ⟨hset, ?_, ?_, ?_⟩
  · intro e he
    obtain ⟨v, hv⟩ := hset
    rw [hv] at he
    cases he
  · intro hlt
    exact fetchData_requests_after_failures url options timeout (j + 1) fuel oracle N w
      (by omega) (by simp only [Int.toNat_ofNat]; omega) (by omega) hfail1
  · intro heq
    subst heq
    obtain ⟨a, b, c⟩ := fetchData_exhausts url options timeout j fuel oracle (j : Int) w
      (by omega) (Int.toNat_ofNat j) hfuel (fun i hi => hfail1 i (Nat.lt_succ_of_le hi))
    refine ⟨a, ?_, ?_⟩
    · rw [b, List.length_append, attemptRequests_length]
    · rw [c, hbad]; rfl

/-- A malformed body on the first of two attempts: a second request follows. -/
theorem fetchData_parse_failure_witness :
    (1 ≤ 2 ^ 53) ∧ (1 < 2) ∧ (0 ≤ 1)
    ∧ (∀ i, i < 0 → ((fun _ => Outcome.response true none) i).failed = true)
    ∧ ((fun _ => Outcome.response true none) 0 = Outcome.response true none)
    ∧ ((∃ v, (fetchData 2 (fun _ => Outcome.response true none)
          "https://api.example.com/data" [] ((1 : Nat) : Int) 5000 World.empty).1
            = some (.fulfilled v))
      ∧ (∀ e, (fetchData 2 (fun _ => Outcome.response true none)
          "https://api.example.com/data" [] ((1 : Nat) : Int) 5000 World.empty).1
            ≠ some (.rejected e))
      ∧ (0 < 1 → World.empty.requests.length + (0 + 2)
          ≤ (fetchData 2 (fun _ => Outcome.response true none) "https://api.example.com/data" []
              ((1 : Nat) : Int) 5000 World.empty).2.requests.length)
      ∧ (0 = 1 →
          (fetchData 2 (fun _ => Outcome.response true none) "https://api.example.com/data" []
              ((1 : Nat) : Int) 5000 World.empty).1 = some (.fulfilled .null)
          ∧ (fetchData 2 (fun _ => Outcome.response true none) "https://api.example.com/data" []
              ((1 : Nat) : Int) 5000 World.empty).2.requests.length
              = World.empty.requests.length + (1 + 1)
          ∧ (fetchData 2 (fun _ => Outcome.response true none) "https://api.example.com/data" []
              ((1 : Nat) : Int) 5000 World.empty).2.console
              = World.empty.console ++ retryLines ((1 : Nat) : Int) 1
                ++ [.fetchError .syntaxError])) :=
  ⟨by decide, by decide, Nat.zero_le 1, fun i hi => absurd hi (Nat.not_lt_zero i), rfl,
    fetchData_parse_failure 2 (fun _ => Outcome.response true none)
      "https://api.example.com/data" [] 1 5000 World.empty 0 (by decide) (by decide)
      (Nat.zero_le 1) (fun i hi => absurd hi (Nat.not_lt_zero i)) rfl⟩

/-- C5, the failing input: one attempt that is rejected with a network error.
The call returns `null` and the abort timer it started is still pending. -/
theorem fetchData_network_error_leaves_timer (fuel : Nat) :
    fetchData (fuel + 1) (fun _ => Outcome.networkError) "https://api.example.com/data" [] 0
        5000 World.empty
      = (some (.fulfilled .null),
          { requests := [⟨"https://api.example.com/data", [], 0⟩]
            timers := [⟨0, 5000⟩]
            nextTimerId := 1
            console := [.fetchError .typeError] }) := by
  rw [fetchData_of_failed_last fuel (fun _ => Outcome.networkError)
    "https://api.example.com/data" [] 0 5000 World.empty rfl (Int.le_refl 0)]
  rfl

/-- C6, as stated, fails: with `retries = 2 ^ 54` against a target that always
times out, the fetch-error line is never emitted, and the first three lines
are three times the same retry line instead of a countdown. -/
theorem fetchData_huge_retries_log_counterexample :
    (¬ ∃ fuel e, LogLine.fetchError e ∈
        (fetchData fuel (fun _ => Outcome.timedOut) "https://api.example.com/data" []
          18014398509481984 100 World.empty).2.console)
    ∧ (fetchData 3 (fun _ => Outcome.timedOut) "https://api.example.com/data" []
          18014398509481984 100 World.empty).2.console
        = [.retrying 18014398509481984, .retrying 18014398509481984,
            .retrying 18014398509481984] := by
  constructor
  · rintro ⟨fuel, e, h⟩
    have hs := (fetchData_stuck "https://api.example.com/data" [] 100 18014398509481984
      (by decide) numberSub_one_stuck fuel (fun _ => Outcome.timedOut) World.empty
      (fun _ => rfl)).2.2
    rw [hs] at h
    simp [World.empty] at h
  · have hs := (fetchData_stuck "https://api.example.com/data" [] 100 18014398509481984
      (by decide) numberSub_one_stuck 3 (fun _ => Outcome.timedOut) World.empty
      (fun _ => rfl)).2.2
    rw [hs]
    rfl

/-- C6, amended: for `0 ≤ N ≤ 2 ^ 53`, against a target whose attempts `0 .. N`
all fail, the call `fetchData(url, options, N, timeout)` emits exactly `N` retry
lines, counting down from `N` to `1`, followed by exactly one fetch-error line:
`N + 1` lines. -/
theorem fetchData_log_lines (fuel : Nat) (oracle : Nat → Outcome) (url : String)
    (options : List (String × String)) (N : Nat) (timeout : Nat) (w : World)
    (hN : N ≤ 2 ^ 53) (hfuel : N < fuel)
    (hfail : ∀ i, i ≤ N → (oracle i).failed = true) :
    (fetchData fuel oracle url options (N : Int) timeout w).1 = some (.fulfilled .null)
    ∧ (fetchData fuel oracle url options (N : Int) timeout w).2.console
      = w.console
        ++ (List.range N).map (fun (i : Nat) => LogLine.retrying ((N : Int) - (i : Int)))
        ++ [LogLine.fetchError (oracle N).thrown]
    ∧ (fetchData fuel oracle url options (N : Int) timeout w).2.console.length
      = w.console.length + (N + 1) := by
  obtain ⟨a, _, c⟩ := fetchData_exhausts url options timeout N fuel oracle (N : Int) w
    (by omega) (Int.toNat_ofNat N) hfuel hfail
  refine ⟨a, c, ?_⟩
  rw [c]
  simp only [List.length_append, retryLines_length, List.length_singleton]
  omega

/-- Two retries against a target that always times out: three lines. -/
theorem fetchData_log_lines_witness :
    (2 ≤ 2 ^ 53) ∧ (2 < 3)
    ∧ (∀ i, i ≤ 2 → ((fun _ => Outcome.timedOut) i).failed = true)
    ∧ (fetchData 3 (fun _ => Outcome.timedOut) "https://api.example.com/data" []
        ((2 : Nat) : Int) 100 World.empty).1 = some (.fulfilled .null)
    ∧ (fetchData 3 (fun _ => Outcome.timedOut) "https://api.example.com/data" []
        ((2 : Nat) : Int) 100 World.empty).2.console
      = World.empty.console
        ++ (List.range 2).map (fun (i : Nat) => LogLine.retrying (((2 : Nat) : Int) - (i : Int)))
        ++ [LogLine.fetchError ((fun _ => Outcome.timedOut) 2).thrown]
    ∧ (fetchData 3 (fun _ => Outcome.timedOut) "https://api.example.com/data" []
        ((2 : Nat) : Int) 100 World.empty).2.console.length
      = World.empty.console.length + (2 + 1) :=
  ⟨by decide, by decide, fun _ _ => rfl,
    fetchData_log_lines 3 (fun _ => Outcome.timedOut) "https://api.example.com/data" []
      2 100 World.empty (by decide) (by decide) (fun _ _ => rfl)⟩

/-- C9, as stated, fails: the only attempt succeeds with a body that is the JSON
value `null`, and `fetchData` returns `null` although no attempt failed. -/
theorem fetchData_null_body_returns_null :
    (fetchData 1 (fun _ => Outcome.response true (some JSValue.null))
      "https://api.example.com/data" [] 0 5000 World.empty).1 = some (.fulfilled .null)
    ∧ ¬ (∀ i, i ≤ 0 →
          ((fun _ => Outcome.response true (some JSValue.null)) i).failed = true) := by
  constructor
  · rw [fetchData_of_body 0 (fun _ => Outcome.response true (some JSValue.null))
      "https://api.example.com/data" [] 0 5000 World.empty JSValue.null rfl]
  · intro h
    have := h 0 (Nat.le_refl 0)
    simp [Outcome.failed] at this

/-- C9, amended: for `retries = N` with `0 ≤ N ≤ 2 ^ 53`, `fetchData` settles,
and it returns `null` if and only if all `N + 1` attempts failed or the first
attempt that did not fail parsed to the JSON value `null`; whenever the first
attempt that does not fail, among the `N + 1`, parses to a value other than
`null`, that value is returned and it is not `null`. -/
theorem fetchData_null_iff (fuel : Nat) (oracle : Nat → Outcome) (url : String)
    (options : List (String × String)) (N : Nat) (timeout : Nat) (w : World)
    (hN : N ≤ 2 ^ 53) (hfuel : N < fuel) :
    (∃ v, (fetchData fuel oracle url options (N : Int) timeout w).1 = some (.fulfilled v))
    ∧ ((fetchData fuel oracle url options (N : Int) timeout w).1 = some (.fulfilled .null)
      ↔ ((∀ i, i ≤ N → (oracle i).failed = true)
        ∨ ∃ j, j ≤ N ∧ (∀ i, i < j → (oracle i).failed = true)
            ∧ oracle j = .response true (some .null)))
    ∧ (∀ j v, j ≤ N → (∀ i, i < j → (oracle i).failed = true) →
        oracle j = .response true (some v) → v ≠ .null →
        (fetchData fuel oracle url options (N : Int) timeout w).1 = some (.fulfilled v)
        ∧ (fetchData fuel oracle url options (N : Int) timeout w).1
            ≠ some (.fulfilled .null)) := by
  have hsucc : ∀ j v, j ≤ N → (∀ i, i < j → (oracle i).failed = true) →
      oracle j = .response true (some v) →
      (fetchData fuel oracle url options (N : Int) timeout w).1 = some (.fulfilled v) := by
    intro j v hj hlt hv
    exact (fetchData_succeeds url options timeout v j fuel oracle (N : Int) w
      (by omega) (by simp only [Int.toNat_ofNat]; exact hj) (by omega) hlt hv).1
  refine ⟨?_, ?_, ?_⟩
  · exact (fetchData_settles url options timeout (N : Int).toNat fuel oracle N w
      (by omega) rfl (by simp only [Int.toNat_ofNat]; exact hfuel)).1
  · constructor
    · intro hnull
      rcases first_body_or_all_failed oracle N with hall | ⟨j, v, hj, hlt, hv⟩
      · exact Or.inl hall
      · right
        have h := hsucc j v hj hlt hv
        rw [h] at hnull
        have hvn : v = .null := by
          simp only [Option.some.injEq] at hnull
          injection hnull
        exact ⟨j, hj, hlt, by rw [hv, hvn]⟩
    · rintro (hall | ⟨j, hj, hlt, hv⟩)
      · exact (fetchData_exhausts url options timeout N fuel oracle (N : Int) w
          (by omega) (Int.toNat_ofNat N) hfuel hall).1
      · exact hsucc j .null hj hlt hv
  · intro j v hj hlt hv hne
    have h := hsucc j v hj hlt hv
    refine ⟨h, ?_⟩
    rw [h]
    intro heq
    apply hne
    simp only [Option.some.injEq] at heq
    injection heq

/-- Three attempts of which the second yields `{"ok": true}`. -/
theorem fetchData_null_iff_witness :
    (2 ≤ 2 ^ 53) ∧ (2 < 3)
    ∧ (fetchData 3
        (fun j => if j = 1 then Outcome.response true (some (JSValue.obj [("ok", .bool true)]))
          else Outcome.timedOut)
        "https://api.example.com/data" [] ((2 : Nat) : Int) 100 World.empty).1
        = some (.fulfilled (JSValue.obj [("ok", .bool true)]))
    ∧ (fetchData 3
        (fun j => if j = 1 then Outcome.response true (some (JSValue.obj [("ok", .bool true)]))
          else Outcome.timedOut)
        "https://api.example.com/data" [] ((2 : Nat) : Int) 100 World.empty).1
        ≠ some (.fulfilled .null) :=
  ⟨by decide, by decide,
    (fetchData_null_iff 3
      (fun j => if j = 1 then Outcome.response true (some (JSValue.obj [("ok", .bool true)]))
        else Outcome.timedOut)
      "https://api.example.com/data" [] 2 100 World.empty (by decide) (by decide)).2.2 1
      (JSValue.obj [("ok", .bool true)]) (by decide)
      (fun i hi => by
        have : i = 0 := by omega
        subst this
        rfl)
      rfl (fun h => by cases h)⟩

/-- C10, as stated, fails: with `retries = 2 ^ 54` against a target that always
fails, the recursion does not end after `max(retries, 0) + 1` attempts: after
`2 ^ 54 + 2` attempts the call has issued `2 ^ 54 + 2` requests and has still
not settled. -/
theorem fetchData_huge_retries_not_total :
    (fetchData 18014398509481986 (fun _ => Outcome.response false none)
        "https://api.example.com/data" [] 18014398509481984 5000 World.empty).1 = none
    ∧ (max (18014398509481984 : Int) 0).toNat + 1
        < (fetchData 18014398509481986 (fun _ => Outcome.response false none)
            "https://api.example.com/data" [] 18014398509481984 5000
            World.empty).2.requests.length := by
  obtain ⟨a, b, _⟩ := fetchData_stuck "https://api.example.com/data" [] 5000 18014398509481984
    (by decide) numberSub_one_stuck 18014398509481986 (fun _ => Outcome.response false none)
    World.empty (fun _ => rfl)
  refine ⟨a, ?_⟩
  rw [b]
  decide

/-- C10, amended: for every integer `retries ≤ 2 ^ 53`, negative values
included, the call settles whatever the attempts do, after at least one and at
most `max(retries, 0) + 1` requests, and for `retries ≤ 0` a failing first
attempt gives exactly one request, the result `null`, and the fetch-error line
as the only output. -/
theorem fetchData_total (fuel : Nat) (oracle : Nat → Outcome) (url : String)
    (options : List (String × String)) (retries : Int) (timeout : Nat) (w : World)
    (hb : retries ≤ 2 ^ 53) (hfuel : (max retries 0).toNat < fuel) :
    (∃ v, (fetchData fuel oracle url options retries timeout w).1 = some (.fulfilled v))
    ∧ (w.requests.length + 1
        ≤ (fetchData fuel oracle url options retries timeout w).2.requests.length
      ∧ (fetchData fuel oracle url options retries timeout w).2.requests.length
          ≤ w.requests.length + ((max retries 0).toNat + 1))
    ∧ (retries ≤ 0 → (oracle 0).failed = true →
        (fetchData fuel oracle url options retries timeout w).1 = some (.fulfilled .null)
        ∧ (fetchData fuel oracle url options retries timeout w).2.requests.length
            = w.requests.length + 1
        ∧ (fetchData fuel oracle url options retries timeout w).2.console
            = w.console ++ [.fetchError (oracle 0).thrown]) := by
  have hmax : (max retries 0).toNat = retries.toNat := by
    rcases le_total retries 0 with h0 | h0
    · rw [max_eq_right h0]; omega
    · rw [max_eq_left h0]
  rw [hmax] at hfuel ⊢
  obtain ⟨a, b, c⟩ := fetchData_settles url options timeout retries.toNat fuel oracle retries w
    hb rfl hfuel
  refine ⟨a, ⟨b, c⟩, ?_⟩
  intro hr hf
  obtain ⟨f, rfl⟩ : ∃ f, fuel = f + 1 := ⟨fuel - 1, by omega⟩
  rw [fetchData_of_failed_last f oracle url options retries timeout w hf hr]
  simp [emit, tryBlock_requests, tryBlock_console]

/-- A negative retry count and a failing target: one request, `null`, one line. -/
theorem fetchData_total_witness :
    ((-3 : Int) ≤ 2 ^ 53) ∧ ((max (-3 : Int) 0).toNat < 1)
    ∧ (fetchData 1 (fun _ => Outcome.networkError) "https://api.example.com/data" [] (-3) 5000
        World.empty).1 = some (.fulfilled .null)
    ∧ (fetchData 1 (fun _ => Outcome.networkError) "https://api.example.com/data" [] (-3) 5000
        World.empty).2.requests.length = World.empty.requests.length + 1
    ∧ (fetchData 1 (fun _ => Outcome.networkError) "https://api.example.com/data" [] (-3) 5000
        World.empty).2.console
        = World.empty.console ++ [.fetchError ((fun _ => Outcome.networkError) 0).thrown] :=
  ⟨by decide, by decide,
    (fetchData_total 1 (fun _ => Outcome.networkError) "https://api.example.com/data" [] (-3)
      5000 World.empty (by decide) (by decide)).2.2 (by decide) rfl⟩

/-! ## deferScripts -/

theorem newScripts_length (n : Nat) (ss : List Script) :
    (newScripts n ss).length = ss.length := by
  induction ss generalizing n with
  | nil => rfl
  | cons s ss ih => simp [newScripts, ih]

/-- Every created script is deferred, is not tagged, and has a node that did
not exist before. -/
theorem newScripts_mem (n : Nat) (ss : List Script) (x : Script) (hx : x ∈ newScripts n ss) :
    x.defer = true ∧ x.dataDefer = false ∧ n ≤ x.node
      ∧ ∃ s ∈ ss, x.src = jsString s.dataSrc := by
  induction ss generalizing n with
  | nil => simp [newScripts] at hx
  | cons s ss ih =>
    simp only [newScripts, List.mem_cons] at hx
    rcases hx with rfl | hx
    · exact ⟨rfl, rfl, Nat.le_refl _, s, List.mem_cons_self _ _, rfl⟩
    · obtain ⟨a, b, c, t, ht, hsrc⟩ := ih (n + 1) hx
      exact ⟨a, b, by omega, t, List.mem_cons_of_mem _ ht, hsrc⟩

theorem deferOne_of_truthy (d : Document) (s : Script) (h : truthy s.dataSrc = true)
    (hs : s.node < d.nextNode) :
    deferOne d s
      = { scripts := d.scripts.filter (fun x => x.node != s.node)
            ++ [⟨d.nextNode, false, none, jsString s.dataSrc, true⟩]
          nextNode := d.nextNode + 1 } := by
  have hne : (d.nextNode != s.node) = true := by
    simp only [bne_iff_ne, ne_eq]
    omega
  simp [deferOne, h, createScript, appendChild, removeScript, List.filter_append, hne]

theorem deferOne_of_not_truthy (d : Document) (s : Script) (h : truthy s.dataSrc = false) :
    deferOne d s = d := by
  simp [deferOne, h]

/-- The loop of `deferScripts` over any list of scripts that already exist. -/
theorem foldl_deferOne (todo : List Script) :
    ∀ d : Document, (∀ s ∈ todo, s.node < d.nextNode) →
      (todo.foldl deferOne d).scripts
        = d.scripts.filter
            (fun x => !(todo.any (fun s => truthy s.dataSrc && s.node == x.node)))
          ++ newScripts d.nextNode (todo.filter (fun s => truthy s.dataSrc))
      ∧ (todo.foldl deferOne d).nextNode
        = d.nextNode + (todo.filter (fun s => truthy s.dataSrc)).length := by
  induction todo with
  | nil =>
    intro d _
    simp [newScripts]
  | cons s todo ih =>
    intro d hd
    have hs : s.node < d.nextNode := hd s (List.mem_cons_self _ _)
    have htodo : ∀ t ∈ todo, t.node < d.nextNode :=
      fun t ht => hd t (List.mem_cons_of_mem _ ht)
    rw [List.foldl_cons]
    cases h : truthy s.dataSrc with
    | false =>
      rw [deferOne_of_not_truthy d s h]
      obtain ⟨a, b⟩ := ih d htodo
      refine ⟨?_, ?_⟩
      · rw [a]
        simp [List.filter_cons, h]
      · rw [b]
        simp [List.filter_cons, h]
    | true =>
      rw [deferOne_of_truthy d s h hs]
      obtain ⟨a, b⟩ := ih
        { scripts := d.scripts.filter (fun x => x.node != s.node)
            ++ [⟨d.nextNode, false, none, jsString s.dataSrc, true⟩]
          nextNode := d.nextNode + 1 }
        (fun t ht => Nat.lt_succ_of_lt (htodo t ht))
      have hnew : (todo.any (fun t => truthy t.dataSrc && t.node == d.nextNode)) = false := by
        rw [Bool.eq_false_iff]
        intro hany
        obtain ⟨t, ht, hp⟩ := List.any_eq_true.mp hany
        have hlt := htodo t ht
        simp only [Bool.and_eq_true, beq_iff_eq] at hp
        omega
      refine ⟨?_, ?_⟩
      · rw [a]
        simp only [List.filter_append, List.filter_filter, List.filter_cons, List.filter_nil,
          hnew, Bool.not_false, if_true, h, newScripts, List.append_assoc, List.singleton_append,
          List.any_cons, Bool.true_and]
        congr 1
        apply List.filter_congr
        intro x _
        by_cases hxs : x.node = s.node
        · simp [hxs]
        · have h1 : (x.node != s.node) = true := by
            simp only [bne_iff_ne, ne_eq]; exact hxs
          have h2 : (s.node == x.node) = false := by
            rw [beq_eq_false_iff_ne]; exact fun h => hxs h.symm
          rw [h1, h2]
          simp
      · rw [b]
        simp only [List.filter_cons, h, if_true, List.length_cons]
        omega

/-- On a well-formed document the selected scripts that hit a node are the
replaced ones. -/
theorem selectDeferred_any (doc : Document) (hwf : doc.WellFormed) (x : Script)
    (hx : x ∈ doc.scripts) :
    (selectDeferred doc).any (fun s => truthy s.dataSrc && s.node == x.node) = replaced x := by
  cases hr : replaced x with
  | true =>
    simp only [replaced, Bool.and_eq_true] at hr
    apply List.any_eq_true.mpr
    refine ⟨x, ?_, ?_⟩
    · simp [selectDeferred, hx, hr.1]
    · simp [hr.2]
  | false =>
    rw [Bool.eq_false_iff]
    intro hany
    obtain ⟨s, hs, hp⟩ := List.any_eq_true.mp hany
    simp only [selectDeferred, List.mem_filter] at hs
    simp only [Bool.and_eq_true, beq_iff_eq] at hp
    have hsx : s = x := List.inj_on_of_nodup_map hwf.1 hs.1 hx hp.2
    subst hsx
    simp [replaced, hs.2, hp.1] at hr

/-- What `deferScripts` does to a well-formed document: the replaced scripts
leave, the others stay in place, and one new script per replaced script is
appended, in the order of the originals. -/
theorem deferScripts_scripts (doc : Document) (hwf : doc.WellFormed) :
    (deferScripts doc).scripts
      = doc.scripts.filter (fun s => !replaced s)
        ++ newScripts doc.nextNode (doc.scripts.filter replaced) := by
  have hsel : ∀ s ∈ selectDeferred doc, s.node < doc.nextNode := by
    intro s hs
    simp only [selectDeferred, List.mem_filter] at hs
    exact hwf.2 s hs.1
  rw [deferScripts, (foldl_deferOne (selectDeferred doc) doc hsel).1]
  congr 1
  · apply List.filter_congr
    intro x hx
    rw [selectDeferred_any doc hwf x hx]
  · congr 1
    simp only [selectDeferred, List.filter_filter]
    apply List.filter_congr
    intro x _
    simp [replaced, Bool.and_comm]

/-- C7, as stated, fails: a script tagged `data-defer` that has no `data-src`
is neither removed nor replaced; the document is unchanged, with one tagged
script and no appended one. -/
theorem deferScripts_keeps_script_without_src :
    deferScripts ⟨[⟨0, true, none, "", false⟩], 1⟩ = ⟨[⟨0, true, none, "", false⟩], 1⟩
    ∧ (selectDeferred ⟨[⟨0, true, none, "", false⟩], 1⟩).length = 1 := by
  constructor <;> rfl

/-- C7, amended: on a document whose nodes are distinct, `deferScripts` removes
every script tagged `data-defer` whose `data-src` is a non-empty string and
appends for it exactly one newly created script with `defer = true` and `src`
equal to the original's `data-src`; every other script, a tagged one without a
usable `data-src` included, stays in the document; so the number of appended
scripts is the number of tagged scripts with a non-empty `data-src`. -/
theorem deferScripts_replaces (doc : Document) (hwf : doc.WellFormed) :
    (deferScripts doc).scripts
      = doc.scripts.filter (fun s => !replaced s)
        ++ newScripts doc.nextNode (doc.scripts.filter replaced)
    ∧ (newScripts doc.nextNode (doc.scripts.filter replaced)).length
        = (doc.scripts.filter replaced).length
    ∧ (∀ s ∈ doc.scripts, replaced s = true → s ∉ (deferScripts doc).scripts)
    ∧ (∀ s ∈ doc.scripts, replaced s = false → s ∈ (deferScripts doc).scripts)
    ∧ (∀ x ∈ newScripts doc.nextNode (doc.scripts.filter replaced),
        x.defer = true ∧ doc.nextNode ≤ x.node
        ∧ ∃ s ∈ doc.scripts, replaced s = true ∧ x.src = jsString s.dataSrc) := by
  have heq := deferScripts_scripts doc hwf
  refine ⟨heq, newScripts_length _ _, ?_, ?_, ?_⟩
  · intro s hs hr hmem
    rw [heq, List.mem_append] at hmem
    rcases hmem with h | h
    · simp [List.mem_filter, hr] at h
    · have := (newScripts_mem _ _ s h).2.2.1
      have := hwf.2 s hs
      omega
  · intro s hs hr
    rw [heq, List.mem_append]
    left
    simp [List.mem_filter, hs, hr]
  · intro x hx
    obtain ⟨a, _, c, s, hs, hsrc⟩ := newScripts_mem _ _ x hx
    rw [List.mem_filter] at hs
    exact ⟨a, c, s, hs.1, hs.2, hsrc⟩

/-- A document with a replaced script, a tagged one without `data-src` and an
untagged one. -/
theorem deferScripts_replaces_witness :
    (Document.WellFormed
      ⟨[⟨0, true, some "a.js", "", false⟩, ⟨1, true, none, "", false⟩,
        ⟨2, false, some "b.js", "", false⟩], 3⟩)
    ∧ (deferScripts
        ⟨[⟨0, true, some "a.js", "", false⟩, ⟨1, true, none, "", false⟩,
          ⟨2, false, some "b.js", "", false⟩], 3⟩).scripts
      = [⟨1, true, none, "", false⟩, ⟨2, false, some "b.js", "", false⟩,
          ⟨3, false, none, "a.js", true⟩] := by
  have hwf : Document.WellFormed
      ⟨[⟨0, true, some "a.js", "", false⟩, ⟨1, true, none, "", false⟩,
        ⟨2, false, some "b.js", "", false⟩], 3⟩ := by
    refine ⟨by decide, ?_⟩
    intro s hs
    simp only [List.mem_cons, List.mem_singleton, List.not_mem_nil, or_false] at hs
    rcases hs with rfl | rfl | rfl <;> decide
  refine ⟨hwf, ?_⟩
  rw [(deferScripts_replaces _ hwf).1]
  rfl

/-! ## lazyLoad -/

theorem bump_zero (el : Element) : bump 0 el = el := by
  simp [bump]

theorem bump_node (k : Nat) (el : Element) : (bump k el).node = el.node := by
  unfold bump
  split <;> rfl

theorem resolve_eq (el : Element) : resolve el = if isMedia el then assignSrc el else el := by
  unfold resolve isMedia
  by_cases h1 : (el.tagName == "IMG") = true
  · simp [h1]
  · by_cases h2 : (el.tagName == "IFRAME") = true
    · simp [h1, h2]
    · simp [h1, h2]

/-- One more intersecting entry after `k` of them. -/
theorem bump_resolve (k : Nat) (el : Element) : bump k (resolve el) = bump (k + 1) el := by
  rw [resolve_eq]
  cases h : isMedia el with
  | false => simp [bump, h]
  | true =>
    have hm : isMedia (assignSrc el) = true := by
      simpa [isMedia, assignSrc] using h
    rcases Nat.eq_zero_or_pos k with hk | hk
    · subst hk
      simp [bump, h, assignSrc]
    · have hk1 : decide (0 < k) = true := by simpa using hk
      have hk2 : decide (0 < k + 1) = true := by simp
      rw [if_pos rfl]
      unfold bump
      rw [hm, h, hk1, hk2]
      simp [assignSrc, Nat.add_assoc, Nat.add_comm 1 k]

theorem hits_cons (n : Nat) (e : Entry) (es : List Entry) :
    hits n (e :: es) = hits n es + (if e.target = n ∧ e.isIntersecting = true then 1 else 0) := by
  simp [hits, List.countP_cons]

theorem onEntry_of_intersecting (p : Page) (e : Entry) (h : e.isIntersecting = true) :
    onEntry p e
      = { elements := p.elements.map (fun el => if el.node == e.target then resolve el else el)
          observed := p.observed.filter (fun n => n != e.target) } := by
  simp [onEntry, h, unobserve]

theorem onEntry_of_not_intersecting (p : Page) (e : Entry) (h : e.isIntersecting = false) :
    onEntry p e = p := by
  simp [onEntry, h]

/-- The callback on a list of entries, element by element and node by node. -/
theorem callback_eq (entries : List Entry) :
    ∀ p : Page,
      callback entries p
        = { elements := p.elements.map (fun el => bump (hits el.node entries) el)
            observed := p.observed.filter (fun n => hits n entries == 0) } := by
  induction entries with
  | nil =>
    intro p
    simp [callback, hits, bump_zero]
  | cons e es ih =>
    intro p
    have hstep : callback (e :: es) p = callback es (onEntry p e) := rfl
    rw [hstep, ih]
    cases h : e.isIntersecting with
    | false =>
      rw [onEntry_of_not_intersecting p e h]
      simp [hits_cons, h]
    | true =>
      rw [onEntry_of_intersecting p e h]
      simp only [List.map_map, List.filter_filter, Page.mk.injEq]
      constructor
      · apply List.map_congr_left
        intro el _
        simp only [Function.comp_apply, hits_cons, h, and_true]
        by_cases ht : el.node = e.target
        · have ht2 : e.target = el.node := ht.symm
          simp only [ht, beq_self_eq_true, if_true]
          rw [bump_resolve]
          simp [resolve_eq, apply_ite Element.node, assignSrc]
          rw [ht]
        · have ht2 : ¬ e.target = el.node := fun hh => ht hh.symm
          simp [ht, ht2]
      · apply List.filter_congr
        intro n _
        simp only [hits_cons, h, and_true]
        by_cases ht : e.target = n
        · have : (n != e.target) = false := by simp [ht]
          simp [ht]
        · have ht2 : ¬ n = e.target := fun hh => ht hh.symm
          simp [ht, ht2]

/-- The entries the browser reports for `n` are those of the batch when `n` is
observed and none otherwise. -/
theorem hits_filter_observed (obs : List Nat) (n : Nat) (batch : List Entry) :
    hits n (batch.filter (fun e => obs.contains e.target))
      = if obs.contains n then hits n batch else 0 := by
  unfold hits
  rw [List.countP_filter]
  cases h : obs.contains n with
  | true =>
    have hm : n ∈ obs := by simpa using h
    simp only [if_true]
    apply List.countP_congr
    intro e _
    by_cases ht : e.target = n
    · simp [ht, hm]
    · simp [ht]
  | false =>
    have hm : n ∉ obs := by
      intro hc
      have : obs.contains n = true := by simpa using hc
      rw [h] at this
      cases this
    simp only [Bool.false_eq_true, if_false]
    rw [List.countP_eq_zero]
    intro e _
    by_cases ht : e.target = n
    · simp [ht, hm]
    · simp [ht]

/-- One delivery of a batch. -/
theorem notify_eq (p : Page) (batch : List Entry) :
    notify p batch
      = { elements := p.elements.map
            (fun el => bump (if p.observed.contains el.node then hits el.node batch else 0) el)
          observed := p.observed.filter (fun n => hits n batch == 0) } := by
  rw [notify, callback_eq]
  simp only [hits_filter_observed, Page.mk.injEq, true_and]
  apply List.filter_congr
  intro n hn
  have : p.observed.contains n = true := by simpa using hn
  simp [this, hn]

theorem firstHits_cons_of_zero (n : Nat) (b : List Entry) (bs : List (List Entry))
    (h : hits n b = 0) : firstHits n (b :: bs) = firstHits n bs := by
  simp [firstHits, h]

theorem firstHits_cons_of_pos (n : Nat) (b : List Entry) (bs : List (List Entry))
    (h : hits n b ≠ 0) : firstHits n (b :: bs) = hits n b := by
  simp [firstHits, h]

/-- The deliveries of a stream of batches. -/
theorem run_eq (batches : List (List Entry)) :
    ∀ p : Page,
      run batches p
        = { elements := p.elements.map
              (fun el =>
                bump (if p.observed.contains el.node then firstHits el.node batches else 0) el)
            observed := p.observed.filter (fun n => firstHits n batches == 0) } := by
  induction batches with
  | nil =>
    intro p
    simp [run, firstHits, bump_zero]
  | cons b bs ih =>
    intro p
    have hstep : run (b :: bs) p = run bs (notify p b) := rfl
    rw [hstep, ih, notify_eq]
    simp only [List.map_map, List.filter_filter, Page.mk.injEq]
    constructor
    · apply List.map_congr_left
      intro el _
      simp only [Function.comp_apply, bump_node]
      cases hobs : p.observed.contains el.node with
      | false =>
        have hnot : (List.filter (fun n => hits n b == 0) p.observed).contains el.node = false := by
          rw [Bool.eq_false_iff]
          intro hc
          have hmem : el.node ∈ List.filter (fun n => hits n b == 0) p.observed := by
            simpa using hc
          have : p.observed.contains el.node = true := by
            simpa using (List.mem_filter.mp hmem).1
          rw [hobs] at this
          cases this
        rw [hnot]
        simp [bump_zero]
      | true =>
        have hmem : el.node ∈ p.observed := by simpa using hobs
        by_cases hz : hits el.node b = 0
        · have hin : (List.filter (fun n => hits n b == 0) p.observed).contains el.node
              = true := by
            simp [List.mem_filter, hmem, hz]
          rw [hin, firstHits_cons_of_zero _ _ _ hz, hz]
          simp [bump_zero]
        · have hout : (List.filter (fun n => hits n b == 0) p.observed).contains el.node
              = false := by
            rw [Bool.eq_false_iff]
            intro hc
            have hm2 : el.node ∈ List.filter (fun n => hits n b == 0) p.observed := by
              simpa using hc
            have := (List.mem_filter.mp hm2).2
            simp at this
            exact hz this
          rw [hout, firstHits_cons_of_pos _ _ _ hz]
          simp [bump_zero]
    · apply List.filter_congr
      intro n _
      by_cases hz : hits n b = 0
      · rw [firstHits_cons_of_zero _ _ _ hz]
        simp [hz]
      · rw [firstHits_cons_of_pos _ _ _ hz]
        simp [hz]

/-- The loop `lazyElements.forEach(el => observer.observe(el))`. -/
theorem foldl_observe (l : List Element) :
    ∀ p : Page,
      (l.foldl observe p).elements = p.elements
      ∧ ∀ n, n ∈ (l.foldl observe p).observed ↔ (n ∈ p.observed ∨ ∃ el ∈ l, el.node = n) := by
  induction l with
  | nil =>
    intro p
    simp
  | cons x l ih =>
    intro p
    rw [List.foldl_cons]
    obtain ⟨a, b⟩ := ih (observe p x)
    have hel : (observe p x).elements = p.elements := by
      unfold observe
      split <;> rfl
    have hob : ∀ n, n ∈ (observe p x).observed ↔ (n ∈ p.observed ∨ x.node = n) := by
      intro n
      unfold observe
      split
      · next hc =>
        have hx : x.node ∈ p.observed := by simpa using hc
        constructor
        · exact Or.inl
        · rintro (h | h)
          · exact h
          · rw [← h]; exact hx
      · simp [eq_comm]
    refine ⟨by rw [a, hel], ?_⟩
    intro n
    rw [b, hob]
    simp only [List.mem_cons, exists_eq_or_imp]
    tauto

/-- After `lazyLoad` with an observer, on a page of distinct nodes, the observed
elements are the ones tagged `data-lazy`. -/
theorem lazyLoad_observed (page : Page)
    (hnodup : (page.elements.map (fun el => el.node)).Nodup) (hobs : page.observed = []) :
    (lazyLoad true page).elements = page.elements
    ∧ ∀ el ∈ page.elements, (lazyLoad true page).observed.contains el.node = el.dataLazy := by
  have hl : lazyLoad true page
      = (page.elements.filter (fun el => el.dataLazy)).foldl observe page := by
    simp [lazyLoad]
  obtain ⟨a, b⟩ := foldl_observe (page.elements.filter (fun el => el.dataLazy)) page
  rw [hl]
  refine ⟨a, ?_⟩
  intro el hel
  cases hd : el.dataLazy with
  | true =>
    have : el.node ∈ (List.foldl observe page
        (page.elements.filter (fun el => el.dataLazy))).observed :=
      (b el.node).mpr (Or.inr ⟨el, List.mem_filter.mpr ⟨hel, hd⟩, rfl⟩)
    simpa using this
  | false =>
    rw [Bool.eq_false_iff]
    intro hc
    have hm : el.node ∈ (List.foldl observe page
        (page.elements.filter (fun el => el.dataLazy))).observed := by simpa using hc
    rcases (b el.node).mp hm with h | ⟨x, hx, hxn⟩
    · rw [hobs] at h
      cases h
    · have hx2 := List.mem_filter.mp hx
      have hxe : x = el := List.inj_on_of_nodup_map hnodup hx2.1 hel hxn
      rw [hxe, hd] at hx2
      cases hx2.2

theorem firstHits_le_one (n : Nat) (batches : List (List Entry))
    (h : ∀ b ∈ batches, hits n b ≤ 1) : firstHits n batches ≤ 1 := by
  induction batches with
  | nil => simp [firstHits]
  | cons b bs ih =>
    by_cases hz : hits n b = 0
    · rw [firstHits_cons_of_zero _ _ _ hz]
      exact ih (fun c hc => h c (List.mem_cons_of_mem _ hc))
    · rw [firstHits_cons_of_pos _ _ _ hz]
      exact h b (List.mem_cons_self _ _)

/-- C8, as stated, fails: a `div` tagged `data-lazy` is observed, and at its
first intersecting entry it is unobserved while its `src` is never assigned. -/
theorem lazyLoad_unobserves_unresolved :
    (lazyLoad true ⟨[⟨0, "DIV", true, some "a.png", none, 0⟩], []⟩).observed = [0]
    ∧ run [[⟨0, true⟩]] (lazyLoad true ⟨[⟨0, "DIV", true, some "a.png", none, 0⟩], []⟩)
        = ⟨[⟨0, "DIV", true, some "a.png", none, 0⟩], []⟩ := by
  constructor <;> decide

/-- C8, amended: on a page of distinct nodes, after `lazyLoad` has set up the
observer and any stream of callback batches has been delivered, an element
tagged `data-lazy` has been assigned `src := data-src` only if it is an image
or an iframe, and then only in the first batch that has an intersecting entry
for it, once per such entry (exactly once when no batch lists it twice); an
element of any other tag, and every untagged element, is never assigned.  A
tagged element of whatever tag is unobserved exactly when some batch had an
intersecting entry for it, so that no later batch assigns it again. -/
theorem lazyLoad_resolves (page : Page) (batches : List (List Entry))
    (hnodup : (page.elements.map (fun el => el.node)).Nodup) (hobs : page.observed = []) :
    (run batches (lazyLoad true page)).elements
      = page.elements.map
          (fun el => if el.dataLazy then bump (firstHits el.node batches) el else el)
    ∧ (∀ el ∈ page.elements, el.dataLazy = true →
        (el.node ∈ (run batches (lazyLoad true page)).observed
          ↔ firstHits el.node batches = 0))
    ∧ (∀ n, (∀ b ∈ batches, hits n b ≤ 1) → firstHits n batches ≤ 1) := by
  obtain ⟨a, b⟩ := lazyLoad_observed page hnodup hobs
  rw [run_eq]
  refine ⟨?_, ?_, fun n h => firstHits_le_one n batches h⟩
  · simp only [a]
    apply List.map_congr_left
    intro el hel
    rw [b el hel]
    cases el.dataLazy <;> simp [bump_zero]
  · intro el hel hd
    have hc := b el hel
    rw [hd] at hc
    have hm : el.node ∈ (lazyLoad true page).observed := by simpa using hc
    simp [List.mem_filter, hm]

/-- A page with a lazy image, a lazy `div` and an untagged image; the image
intersects in the second batch and again in the third. -/
theorem lazyLoad_resolves_witness :
    (List.map (fun el => el.node)
      (Page.mk [⟨0, "IMG", true, some "a.png", none, 0⟩, ⟨1, "DIV", true, some "b.png", none, 0⟩,
        ⟨2, "IMG", false, some "c.png", none, 0⟩] []).elements).Nodup
    ∧ (Page.mk [⟨0, "IMG", true, some "a.png", none, 0⟩, ⟨1, "DIV", true, some "b.png", none, 0⟩,
        ⟨2, "IMG", false, some "c.png", none, 0⟩] []).observed = []
    ∧ (run [[⟨0, false⟩, ⟨1, true⟩], [⟨0, true⟩], [⟨0, true⟩]]
        (lazyLoad true
          ⟨[⟨0, "IMG", true, some "a.png", none, 0⟩, ⟨1, "DIV", true, some "b.png", none, 0⟩,
            ⟨2, "IMG", false, some "c.png", none, 0⟩], []⟩)).elements
      = [⟨0, "IMG", true, some "a.png", some "a.png", 1⟩,
          ⟨1, "DIV", true, some "b.png", none, 0⟩, ⟨2, "IMG", false, some "c.png", none, 0⟩] := by
  refine ⟨by decide, rfl, ?_⟩
  rw [(lazyLoad_resolves
    ⟨[⟨0, "IMG", true, some "a.png", none, 0⟩, ⟨1, "DIV", true, some "b.png", none, 0⟩,
      ⟨2, "IMG", false, some "c.png", none, 0⟩], []⟩
    [[⟨0, false⟩, ⟨1, true⟩], [⟨0, true⟩], [⟨0, true⟩]] (by decide) rfl).1]
  decide

end SiteOptimizer

